import Mathlib

/-!
# Verification of the janus cross-thread synchronisation core

Shallow embedding of the core data structures and operations of the janus
runtime, translated from the Rust sources:

* `src/input/stream.rs` — the `DeltaPacket` 32-bit codec, the `FoldBits`
  64-bit two-packet word, the `InputStreamIndex` packed head/tail index and
  the `InputStream` section-partitioned channel;
* `src/sync/mod.rs` — the `Mirror` lazily-synchronised value cell;
* `src/context.rs` — the `DeltaAccumulator` fixed-step clock and the
  `StateHandle` ownership state machine;
* `src/input/mod.rs` — key/button code conversions and the `Keys`
  press/release table.

Machine integers are modelled as `Nat` with explicit truncation where the
source relies on a fixed width.  Stateful methods become pure functions
returning the updated state; Rust panics (array indexing out of bounds,
`unreachable!`, `panic!`) are modelled as `Option`/`none` results.
-/

namespace Janus

/-! ## DeltaPacket codec (src/input/stream.rs lines 5-82)

The Rust type is

```
#[repr(u32)]
pub enum DeltaPacket {
    Keyboard { code: KeyboardKeyCode, down: bool },
    Mouse { button: MouseButtonIndex, down: bool },
}
```

where `KeyboardKeyCode` and `MouseButtonIndex` are newtypes over `u16`,
modelled as `Fin 65536`. -/

inductive DeltaPacket where
  | Keyboard (code : Fin 65536) (down : Bool)
  | Mouse (button : Fin 65536) (down : Bool)
  deriving DecidableEq, Repr

namespace DeltaPacket

/-- `const KEYBOARD_ID_BIT: u8 = 1` -/
def KEYBOARD_ID_BIT : Nat := 1

/-- `const MOUSE_ID_BIT: u8 = 2` -/
def MOUSE_ID_BIT : Nat := 2

/-- `const CODE_BIT_SHIFT: i32 = 8` -/
def CODE_BIT_SHIFT : Nat := 8

/-- `const ID_BIT_SHIFT: i32 = 28` -/
def ID_BIT_SHIFT : Nat := 28

/-- `DeltaPacket::as_bits` (stream.rs lines 66-82).  `state | code << 8 | id`
with `id = (1 or 2) << 28`.  The result is a `u32`; every operand is below
`2 ^ 32` so no truncation occurs. -/
def as_bits : DeltaPacket → Nat
  | .Keyboard code down =>
      let state : Nat := if down then 1 else 0
      let id := KEYBOARD_ID_BIT <<< ID_BIT_SHIFT
      state ||| code.val <<< 8 ||| id
  | .Mouse button down =>
      let state : Nat := if down then 1 else 0
      let id := MOUSE_ID_BIT <<< ID_BIT_SHIFT
      state ||| button.val <<< 8 ||| id

/-- `DeltaPacket::from_bits` (stream.rs lines 44-64).  An unrecognised type
tag hits `unreachable!`, modelled as `none`. -/
def from_bits (bits : Nat) : Option DeltaPacket :=
  let state := bits &&& 0x0000000F
  let code := bits >>> CODE_BIT_SHIFT &&& 0x0000FFFF
  let id := bits >>> ID_BIT_SHIFT
  if id = KEYBOARD_ID_BIT then
    some (.Keyboard ⟨code, Nat.lt_succ_of_le Nat.and_le_right⟩ (state == 1))
  else if id = MOUSE_ID_BIT then
    some (.Mouse ⟨code, Nat.lt_succ_of_le Nat.and_le_right⟩ (state == 1))
  else
    none

/-- Arithmetic normal form of the keyboard encoding: the three fields occupy
disjoint bit ranges, so the bitwise ors collapse to an ordinary sum. -/
lemma as_bits_Keyboard (c : Fin 65536) (d : Bool) :
    as_bits (.Keyboard c d) = 2 ^ 28 + 2 ^ 8 * c.val + (if d then 1 else 0) := by
  have hc := c.isLt
  have hlow : (if d then 1 else 0 : Nat) < 2 ^ 8 := by
    cases d <;> decide
  have h1 : (if d then 1 else 0 : Nat) ||| c.val <<< 8
      = 2 ^ 8 * c.val + (if d then 1 else 0) := by
    rw [Nat.shiftLeft_eq, Nat.lor_comm, Nat.mul_comm c.val (2 ^ 8)]
    exact (Nat.mul_add_lt_is_or hlow c.val).symm
  have hmid : 2 ^ 8 * c.val + (if d then 1 else 0) < 2 ^ 28 := by
    cases d <;> simp <;> omega
  have h2 : (2 ^ 8 * c.val + (if d then 1 else 0)) ||| 1 <<< 28
      = 2 ^ 28 * 1 + (2 ^ 8 * c.val + (if d then 1 else 0)) := by
    rw [Nat.shiftLeft_eq, Nat.lor_comm, Nat.one_mul, Nat.mul_one]
    have := (Nat.mul_add_lt_is_or hmid 1).symm
    simpa using this
  simp only [as_bits, KEYBOARD_ID_BIT, ID_BIT_SHIFT, h1, h2]
  omega

/-- Arithmetic normal form of the mouse encoding. -/
lemma as_bits_Mouse (c : Fin 65536) (d : Bool) :
    as_bits (.Mouse c d) = 2 ^ 29 + 2 ^ 8 * c.val + (if d then 1 else 0) := by
  have hc := c.isLt
  have hlow : (if d then 1 else 0 : Nat) < 2 ^ 8 := by
    cases d <;> decide
  have h1 : (if d then 1 else 0 : Nat) ||| c.val <<< 8
      = 2 ^ 8 * c.val + (if d then 1 else 0) := by
    rw [Nat.shiftLeft_eq, Nat.lor_comm, Nat.mul_comm c.val (2 ^ 8)]
    exact (Nat.mul_add_lt_is_or hlow c.val).symm
  have hmid : 2 ^ 8 * c.val + (if d then 1 else 0) < 2 ^ 28 := by
    cases d <;> simp <;> omega
  have h2 : (2 ^ 8 * c.val + (if d then 1 else 0)) ||| 2 <<< 28
      = 2 ^ 28 * 2 + (2 ^ 8 * c.val + (if d then 1 else 0)) := by
    rw [Nat.shiftLeft_eq, Nat.lor_comm, Nat.mul_comm 2 (2 ^ 28)]
    exact (Nat.mul_add_lt_is_or hmid 2).symm
  simp only [as_bits, MOUSE_ID_BIT, ID_BIT_SHIFT, h1, h2]
  omega

lemma and_fifteen (x : Nat) : x &&& 15 = x % 16 := by
  have := Nat.and_pow_two_sub_one_eq_mod x 4
  norm_num at this
  exact this

lemma and_ffff (x : Nat) : x &&& 65535 = x % 65536 := by
  have := Nat.and_pow_two_sub_one_eq_mod x 16
  norm_num at this
  exact this

/-- Decoding a sum-form keyboard word recovers the fields. -/
lemma from_bits_keyboard_add (cv s : Nat) (hcv : cv < 65536) (hs : s < 2) :
    from_bits (2 ^ 28 + 2 ^ 8 * cv + s) = some (.Keyboard ⟨cv, hcv⟩ (s == 1)) := by
  have hid : (2 ^ 28 + 2 ^ 8 * cv + s) >>> 28 = 1 := by
    rw [Nat.shiftRight_eq_div_pow]; omega
  have hcode : (2 ^ 28 + 2 ^ 8 * cv + s) >>> 8 &&& 65535 = cv := by
    rw [Nat.shiftRight_eq_div_pow, and_ffff]; omega
  have hstate : (2 ^ 28 + 2 ^ 8 * cv + s) &&& 15 = s := by
    rw [and_fifteen]; omega
  simp only [from_bits, KEYBOARD_ID_BIT, MOUSE_ID_BIT, CODE_BIT_SHIFT,
    ID_BIT_SHIFT, hid, hcode, hstate]
  simp

/-- Decoding a sum-form mouse word recovers the fields. -/
lemma from_bits_mouse_add (cv s : Nat) (hcv : cv < 65536) (hs : s < 2) :
    from_bits (2 ^ 29 + 2 ^ 8 * cv + s) = some (.Mouse ⟨cv, hcv⟩ (s == 1)) := by
  have hid : (2 ^ 29 + 2 ^ 8 * cv + s) >>> 28 = 2 := by
    rw [Nat.shiftRight_eq_div_pow]; omega
  have hcode : (2 ^ 29 + 2 ^ 8 * cv + s) >>> 8 &&& 65535 = cv := by
    rw [Nat.shiftRight_eq_div_pow, and_ffff]; omega
  have hstate : (2 ^ 29 + 2 ^ 8 * cv + s) &&& 15 = s := by
    rw [and_fifteen]; omega
  simp only [from_bits, KEYBOARD_ID_BIT, MOUSE_ID_BIT, CODE_BIT_SHIFT,
    ID_BIT_SHIFT, hid, hcode, hstate]
  simp

/-- Decoding inverts encoding: the shared round-trip fact behind the codec
claims. -/
lemma from_bits_as_bits (p : DeltaPacket) : from_bits (as_bits p) = some p := by
  cases p with
  | Keyboard c d =>
      rw [as_bits_Keyboard,
        from_bits_keyboard_add c.val (if d then 1 else 0) c.isLt
          (by cases d <;> decide)]
      cases d <;> simp
  | Mouse c d =>
      rw [as_bits_Mouse,
        from_bits_mouse_add c.val (if d then 1 else 0) c.isLt
          (by cases d <;> decide)]
      cases d <;> simp

/-- The tag bits make every encoding at least `2 ^ 28`, hence nonzero. -/
lemma as_bits_ne_zero (p : DeltaPacket) : as_bits p ≠ 0 := by
  cases p with
  | Keyboard c d => rw [as_bits_Keyboard]; omega
  | Mouse c d => rw [as_bits_Mouse]; omega

end DeltaPacket

/-! ## FoldBits (src/input/stream.rs lines 255-299)

`FoldBits(AtomicU64)` — one 64-bit word holding two 32-bit halves.  The
word is modelled as a `Nat` below `2 ^ 64`; the atomic load/store/fetch_and
of the sequential protocol become pure reads and updates. -/

namespace FoldBits

/-- `FoldBits::read_bits`: `(value >> 32, value & 0x00000000FFFFFFFF)`. -/
def read_bits (value : Nat) : Nat × Nat :=
  (value >>> 32, value &&& 0x00000000FFFFFFFF)

/-- `FoldBits::write_left`: `store((bits as u64) << 32)` — replaces the whole
word.  `bits < 2 ^ 32`, so the shift fits `u64` exactly. -/
def write_left (value : Nat) (packet : DeltaPacket) : Nat :=
  let _ := value
  packet.as_bits <<< 32

/-- `FoldBits::write_right`: `fetch_and(bits as u64)` — the source combines
the existing word with the new packet using bitwise AND. -/
def write_right (value : Nat) (packet : DeltaPacket) : Nat :=
  value &&& packet.as_bits

/-- `FoldBits::read_left`: a zero-valued left half is the empty-slot
sentinel. -/
def read_left (value : Nat) : Option DeltaPacket :=
  let (left, _) := read_bits value
  if left = 0 then none else DeltaPacket.from_bits left

/-- `FoldBits::read_right`. -/
def read_right (value : Nat) : Option DeltaPacket :=
  let (_, right) := read_bits value
  if right = 0 then none else DeltaPacket.from_bits right

end FoldBits

/-! ## InputStreamIndex (src/input/stream.rs lines 191-253)

One `AtomicU16` packing an 8-bit section-local slot (high byte, as written
by `new`/`encode`) and an 8-bit section number (low byte).  The index value
is modelled as the encoded `Nat` below `2 ^ 16`.

`PER_FOLD_CAP = size_of::<FoldBits>() / size_of::<DeltaPacket>()`: with
`FoldBits` wrapping an `AtomicU64` (8 bytes) and `DeltaPacket` a
`repr(u32)` enum with a `u16` + `bool` payload (4-byte tag + 2 + 1, padded
to 8 bytes), this is `8 / 8 = 1`, so `SECTION_CAPACITY = FOLDS`. -/

namespace InputStreamIndex

/-- `size_of::<FoldBits>()` in bytes. -/
def FOLD_BITS_SIZE : Nat := 8

/-- `size_of::<DeltaPacket>()` in bytes. -/
def DELTA_PACKET_SIZE : Nat := 8

/-- `InputStreamIndex::PER_FOLD_CAP`. -/
def PER_FOLD_CAP : Nat := FOLD_BITS_SIZE / DELTA_PACKET_SIZE

/-- `InputStreamIndex::SECTION_CAPACITY` for a given `FOLDS`. -/
def SECTION_CAPACITY (FOLDS : Nat) : Nat := FOLDS * PER_FOLD_CAP

/-- `InputStreamIndex::encode` / `new`: `(index as u16) << 8 | section`.
Both arguments are `u8` values (below 256), so the result fits `u16`. -/
def encode (index sectionIdx : Nat) : Nat :=
  index <<< 8 ||| sectionIdx

/-- `InputStreamIndex::extract`: returns `(section, local)` — the low byte
first, then the high byte. -/
def extract (encoded : Nat) : Nat × Nat :=
  let localIdx := encoded >>> 8 &&& 0x00FF
  let sectionIdx := encoded &&& 0x00FF
  (sectionIdx, localIdx)

/-- `InputStreamIndex::advance_local`.  NOTE (faithful to the source): the
Rust code destructures `let (i, section) = self.extract();`, so `i` is
bound to the low byte (the stored *section*) and `section` to the high byte
(the stored *local slot*); it then increments `i` modulo the capacity,
re-encodes, and returns the tuple *after* the increment. -/
def advance_local (CAP : Nat) (st : Nat) : (Nat × Nat) × Nat :=
  let (i, sectionIdx) := extract st
  let i := (i + 1) % CAP
  ((i, sectionIdx), encode i sectionIdx)

/-- `InputStreamIndex::advance_section`.  NOTE (faithful to the source): the
Rust code destructures `let (_, section) = self.extract();`, binding
`section` to the high byte (the stored *local slot*). -/
def advance_section (SECTIONS : Nat) (st : Nat) : Nat :=
  let (_, sectionIdx) := extract st
  let sectionIdx := (sectionIdx + 1) % SECTIONS
  encode 0 sectionIdx

/-- `InputStreamIndex::section`: `self.extract().0`, the low byte. -/
def sectionOf (st : Nat) : Nat :=
  (extract st).1

end InputStreamIndex

/-! ## InputStream (src/input/stream.rs lines 84-189)

`InputStream<const FOLDS, const SECTIONS>`: a `SECTIONS × FOLDS` array of
`FoldBits` plus the head (write) and tail (read) indices.  Rust's
out-of-bounds array indexing panic is modelled by `Option`/`none` via
`List.get?`. -/

structure InputStream where
  stream : List (List Nat)
  head : Nat
  tail : Nat
  deriving DecidableEq, Repr

namespace InputStream

open InputStreamIndex

/-- `InputStream::new`: zeroed folds, `head = new(0, 1)`, `tail = new(0, 0)`. -/
def new (FOLDS SECTIONS : Nat) : InputStream :=
  { stream := List.replicate SECTIONS (List.replicate FOLDS 0)
    head := encode 0 1
    tail := encode 0 0 }

/-- `InputStream::frame_front`: `self.head.advance_section()` —
unconditional. -/
def frame_front (SECTIONS : Nat) (s : InputStream) : InputStream :=
  { s with head := advance_section SECTIONS s.head }

/-- `InputStream::frame_back`: advances the tail section unless doing so
would land on the head's current section. -/
def frame_back (SECTIONS : Nat) (s : InputStream) : InputStream :=
  let next := (sectionOf s.tail + 1) % SECTIONS
  if next = sectionOf s.head then s
  else { s with tail := advance_section SECTIONS s.tail }

/-- `InputStream::push_front` (stream.rs lines 125-138): advance the head's
local slot, then write the packet into the addressed fold half. -/
def push_front (FOLDS : Nat) (s : InputStream) (packet : DeltaPacket) :
    Option InputStream := do
  let ((localIdx, sectionIdx), head') := advance_local (SECTION_CAPACITY FOLDS) s.head
  let sec ← s.stream.get? sectionIdx
  let foldIdx := localIdx / 2
  let side := localIdx % 2
  let fold ← sec.get? foldIdx
  let fold' := if side = 0 then FoldBits.write_left fold packet
               else FoldBits.write_right fold packet
  some { stream := s.stream.set sectionIdx (sec.set foldIdx fold')
         head := head', tail := s.tail }

/-- `IterInputStream::next` (stream.rs lines 175-188): advance the tail's
local slot and read the addressed fold half of the captured section.
The outer `Option` models an out-of-bounds panic; the inner `Option` is the
iterator's own result. -/
def iter_next (CAP : Nat) (sec : List Nat) (tl : Nat) :
    Option (Option DeltaPacket × Nat) := do
  let ((localIdx, _), tl') := advance_local CAP tl
  let foldIdx := localIdx / 2
  let side := localIdx % 2
  let fold ← sec.get? foldIdx
  some ((if side = 0 then FoldBits.read_left fold else FoldBits.read_right fold), tl')

/-- Repeatedly call `iter_next` until it yields `None` (the iterator is
consumed by `for_each` in `InputState::poll_key_events`), collecting the
packets.  `fuel` bounds the loop. -/
def drain_list (CAP : Nat) : Nat → List Nat → Nat → Option (List DeltaPacket × Nat)
  | 0, _, tl => some ([], tl)
  | fuel + 1, sec, tl => do
    let (res, tl') ← iter_next CAP sec tl
    match res with
    | none => some ([], tl')
    | some p => do
        let (rest, tl'') ← drain_list CAP fuel sec tl'
        some (p :: rest, tl'')

/-- `InputStream::drain_back` followed by full consumption of the iterator:
captures the tail's current section and walks it. -/
def drain_back (FOLDS : Nat) (fuel : Nat) (s : InputStream) :
    Option (List DeltaPacket × InputStream) := do
  let sec ← s.stream.get? (sectionOf s.tail)
  let (packets, tl') ← drain_list (SECTION_CAPACITY FOLDS) fuel sec s.tail
  some (packets, { s with tail := tl' })

end InputStream

/-! ## DeltaAccumulator (src/context.rs lines 259-313)

`step` and `accumulated` are `std::time::Duration` values; a `Duration`
counts whole nanoseconds exactly, so both are modelled as `Nat`
nanoseconds.  `accum()` samples the wall clock through `DeltaCycle::sync`;
the model takes the elapsed time of that sample as an explicit argument. -/

structure DeltaAccumulator where
  step : Nat
  accumulated : Nat
  deriving DecidableEq, Repr

namespace DeltaAccumulator

/-- `DeltaAccumulator::new`: `accumulated` starts at `Default::default()`,
i.e. zero. -/
def new (step : Nat) : DeltaAccumulator :=
  { step := step, accumulated := 0 }

/-- `DeltaAccumulator::accum`: `self.accumulated += self.cycle.delta_time()`,
with the sampled elapsed wall time passed in explicitly. -/
def accum (a : DeltaAccumulator) (elapsed : Nat) : DeltaAccumulator :=
  { a with accumulated := a.accumulated + elapsed }

/-- `DeltaAccumulator::time_ahead`: `step.saturating_sub(accumulated)`. -/
def time_ahead (a : DeltaAccumulator) : Nat :=
  a.step - a.accumulated

/-- `DeltaAccumulator::overstep`: returns whether `accumulated >= step` and,
if so, subtracts one `step`. -/
def overstep (a : DeltaAccumulator) : Bool × DeltaAccumulator :=
  let ov := a.accumulated ≥ a.step
  if ov then (true, { a with accumulated := a.accumulated - a.step })
  else (false, a)

/-- A sequence of `accum` calls with the given elapsed samples. -/
def accum_all (a : DeltaAccumulator) (es : List Nat) : DeltaAccumulator :=
  es.foldl accum a

/-- Call `overstep` `k` times, collecting the returned booleans. -/
def overstep_run : Nat → DeltaAccumulator → List Bool × DeltaAccumulator
  | 0, a => ([], a)
  | k + 1, a =>
      let (b, a') := overstep a
      let (rest, a'') := overstep_run k a'
      (b :: rest, a'')

lemma accum_all_accumulated (a : DeltaAccumulator) (es : List Nat) :
    accum_all a es = { a with accumulated := a.accumulated + es.sum } := by
  induction es generalizing a with
  | nil => simp [accum_all]
  | cons e es ih =>
      simp only [accum_all, List.foldl_cons, List.sum_cons] at *
      rw [ih]
      simp [accum]
      omega

/-- One unfolding step of `overstep_run`. -/
lemma overstep_run_succ (k : Nat) (a : DeltaAccumulator) :
    overstep_run (k + 1) a
      = ((overstep a).1 :: (overstep_run k (overstep a).2).1,
         (overstep_run k (overstep a).2).2) := by
  cases hp : overstep a with
  | mk b a' => simp only [overstep_run, hp]

/-- Draining an accumulator holding `acc` with positive step yields exactly
`acc / step` `true` results followed by a `false`, leaving `acc % step`. -/
lemma overstep_run_drain (step : Nat) (hstep : 0 < step) :
    ∀ acc : Nat, overstep_run (acc / step + 1) ⟨step, acc⟩
      = (List.replicate (acc / step) true ++ [false], ⟨step, acc % step⟩) := by
  intro acc
  induction acc using Nat.strong_induction_on with
  | _ acc ih =>
      by_cases h : acc < step
      · have hdiv : acc / step = 0 := Nat.div_eq_of_lt h
        have hmod : acc % step = acc := Nat.mod_eq_of_lt h
        have hov : overstep ⟨step, acc⟩ = (false, ⟨step, acc⟩) := by
          simp only [overstep, ge_iff_le]
          rw [if_neg (by omega)]
        rw [hdiv, hmod, overstep_run_succ, hov]
        simp [overstep_run]
      · push_neg at h
        have hdiv : acc / step = (acc - step) / step + 1 := by
          rw [Nat.div_eq_sub_div hstep h]
        have hmod : acc % step = (acc - step) % step := by
          rw [Nat.mod_eq_sub_mod h]
        have hlt : acc - step < acc := by omega
        have hov : overstep ⟨step, acc⟩ = (true, ⟨step, acc - step⟩) := by
          simp only [overstep, ge_iff_le]
          rw [if_pos (by omega)]
        rw [hdiv, hmod, overstep_run_succ, hov]
        simp only []
        rw [ih (acc - step) hlt]
        simp [List.replicate_succ]

end DeltaAccumulator

/-! ## Mirror (src/sync/mod.rs)

A `Mirror<T>` handle owns a `local` cached copy and a `version`, and shares
(through `Arc`s) the canonical cell `*mut T`, the `latest` version counter
and the `rw_signal` busy flag.  The shared part is modelled as
`MirrorShared`, the per-handle part as `MirrorHandle`.

The spin loops in `publish` and `sync` terminate exactly when the flag is
observed free; in the sequential protocols stated below the flag is free,
and each operation leaves it as it found it (acquire then release), which
the pure functions reflect by leaving `rw_signal` unchanged. -/

/-- `SyncError` (sync/mod.rs lines 10-14). -/
inductive SyncError where
  | TimeoutExceeded (exceed_time_ns : Nat)
  | Locked
  deriving DecidableEq, Repr

/-- `SyncResult = Result<(), SyncError>`. -/
abbrev SyncResult := Except SyncError Unit

/-- The jointly owned part of a `Mirror<T>`: canonical cell, latest version,
busy flag. -/
structure MirrorShared (T : Type) where
  cell : T
  latest : Nat
  rw_signal : Bool
  deriving DecidableEq

/-- The per-handle part of a `Mirror<T>`: local cache and observed version. -/
structure MirrorHandle (T : Type) where
  localValue : T
  version : Nat
  deriving DecidableEq

namespace Mirror

/-- `Mirror::new`: local copy of the value, version 0, shared latest 0,
flag free. -/
def new {T : Type} (value : T) : MirrorShared T × MirrorHandle T :=
  ({ cell := value, latest := 0, rw_signal := false },
   { localValue := value, version := 0 })

/-- `Clone for Mirror` (derived): copies the handle's local cache and
version; the shared part is aliased. -/
def clone {T : Type} (h : MirrorHandle T) : MirrorHandle T := h

/-- `Mirror::publish` (sync/mod.rs lines 73-93): acquire the flag, overwrite
the canonical cell, release, `version = latest.fetch_add(1) + 1`, update the
local cache. -/
def publish {T : Type} (sh : MirrorShared T) (h : MirrorHandle T) (value : T) :
    MirrorShared T × MirrorHandle T :=
  let _ := h
  ({ cell := value, latest := sh.latest + 1, rw_signal := sh.rw_signal },
   { localValue := value, version := sh.latest + 1 })

/-- `Mirror::check_sync_status` (sync/mod.rs lines 96-99). -/
def check_sync_status {T : Type} (sh : MirrorShared T) (h : MirrorHandle T) : Bool :=
  h.version == sh.latest

/-- `Mirror::sync` (sync/mod.rs lines 156-179): if stale, acquire the flag,
copy the canonical cell into the local cache, release, adopt the sampled
version. -/
def sync {T : Type} (sh : MirrorShared T) (h : MirrorHandle T) : MirrorHandle T :=
  if h.version < sh.latest then
    { localValue := sh.cell, version := sh.latest }
  else h

/-- `Mirror::sync_noblock` (sync/mod.rs lines 116-140): if stale and the
flag is held, fail with `Locked` immediately, leaving the handle untouched;
otherwise behave like `sync` and return `Ok`. -/
def sync_noblock {T : Type} (sh : MirrorShared T) (h : MirrorHandle T) :
    SyncResult × MirrorHandle T :=
  if h.version < sh.latest then
    if sh.rw_signal then (.error .Locked, h)
    else (.ok (), { localValue := sh.cell, version := sh.latest })
  else (.ok (), h)

/-- `Mirror::get` (sync/mod.rs lines 234-236): the local cache, possibly
stale. -/
def get {T : Type} (h : MirrorHandle T) : T :=
  h.localValue

/-- `publish(v1), …, publish(vn)` by one handle, left to right. -/
def publish_all {T : Type} (sh : MirrorShared T) (h : MirrorHandle T)
    (vs : List T) : MirrorShared T × MirrorHandle T :=
  vs.foldl (fun p v => publish p.1 p.2 v) (sh, h)

lemma publish_all_shared {T : Type} (sh : MirrorShared T) (h : MirrorHandle T)
    (vs : List T) :
    (publish_all sh h vs).1
      = { cell := vs.getLast?.getD sh.cell
          latest := sh.latest + vs.length
          rw_signal := sh.rw_signal } := by
  induction vs generalizing sh h with
  | nil => simp [publish_all]
  | cons v vs ih =>
      simp only [publish_all, List.foldl_cons] at *
      rw [ih]
      cases vs with
      | nil => simp [publish]
      | cons w ws =>
          cases hgl : (w :: ws).getLast? with
          | none => simp at hgl
          | some x =>
              simp [publish, hgl]
              omega

end Mirror

/-! ## StateHandle and Context::initialise_thread (src/context.rs)

`StateHandle<State>` (context.rs lines 95-103) tracks ownership of the
simulation state.  `initialise_thread` (context.rs lines 186-231) swaps the
handle for `Preparing`, and if the previous value was `Uninitialised(state)`
it spawns the simulation thread with that state and stores `Acquired`;
any other previous value is a `panic!`, modelled as `none`.  The spawned
thread handle carries no further observable structure here and is modelled
as `Unit`; the thread body itself is an infinite loop over the
`DeltaAccumulator` model above. -/

inductive StateHandle (State : Type) where
  | Acquired (handle : Unit)
  | Preparing
  | Uninitialised (state : State)

namespace StateHandle

/-- `Context::initialise_thread`, viewed as a transition on the contained
`StateHandle`.  `none` models the `panic!` on re-acquisition. -/
def initialise_thread {State : Type} (h : StateHandle State) :
    Option (StateHandle State) :=
  match h with
  | .Uninitialised _ => some (.Acquired ())
  | _ => none

end StateHandle

/-! ## Key/button conversions and the Keys table (src/input/mod.rs)

`KEYBOARD_ENTRIES = 512`, `MOUSE_ENTRIES = 24`, `RELEASE_SIGNAL = 0xFFFF`.
`Keys` stores per-code frame counters; `press_change` indexes the tables
with the packet's code, panicking (modelled `none`) if out of bounds. -/

def KEYBOARD_ENTRIES : Nat := 512

def MOUSE_ENTRIES : Nat := 24

def RELEASE_SIGNAL : Nat := 0xFFFF

/-- `From<winit::keyboard::KeyCode> for KeyboardKeyCode` (input/mod.rs lines
303-307): `(value as u16).min(KEYBOARD_ENTRIES as u16 - 1)`.  The argument
is the key code's discriminant cast to `u16`. -/
def keyboardKeyCodeFrom (value : Fin 65536) : Fin 65536 :=
  ⟨min value.val (KEYBOARD_ENTRIES - 1),
   lt_of_le_of_lt (Nat.min_le_right _ _) (by decide)⟩

/-- `winit::event::MouseButton`. -/
inductive MouseButton where
  | Left
  | Right
  | Middle
  | Back
  | Forward
  | Other (id : Fin 65536)

/-- `From<winit::event::MouseButton> for MouseButtonIndex` (input/mod.rs
lines 329-343).  Note the source maps `Back` to the constant named
`FORWARD` (4) and `Forward` to `BACK` (3).  For `Other(id)` the `u16`
addition `id + OTHER_OFFSET` is modelled with wraparound modulo `2 ^ 16`
before the clamp. -/
def mouseButtonIndexFrom : MouseButton → Fin 65536
  | .Left => ⟨0, by decide⟩
  | .Right => ⟨1, by decide⟩
  | .Middle => ⟨2, by decide⟩
  | .Back => ⟨4, by decide⟩
  | .Forward => ⟨3, by decide⟩
  | .Other id =>
      ⟨min ((id.val + 5) % 65536) (MOUSE_ENTRIES - 1),
       lt_of_le_of_lt (Nat.min_le_right _ _) (by decide)⟩

/-- `Keys` (input/mod.rs lines 158-162): `u16` frame counters. -/
structure Keys where
  keyboard : List Nat
  mouse : List Nat

namespace Keys

/-- `Keys::new`. -/
def new : Keys :=
  { keyboard := List.replicate KEYBOARD_ENTRIES 0
    mouse := List.replicate MOUSE_ENTRIES 0 }

/-- `Keys::press_change` (input/mod.rs lines 195-222).  Reads the counter at
the packet's code — `none` models the index-out-of-bounds panic — then
applies the press/release transition. -/
def press_change (k : Keys) (delta : DeltaPacket) : Option Keys :=
  match delta with
  | .Keyboard code down => do
      let cur ← k.keyboard.get? code.val
      if down then
        if cur = 0 then some { k with keyboard := k.keyboard.set code.val 1 }
        else some k
      else
        if cur > 0 ∧ cur ≠ RELEASE_SIGNAL then
          some { k with keyboard := k.keyboard.set code.val RELEASE_SIGNAL }
        else some k
  | .Mouse button down => do
      let cur ← k.mouse.get? button.val
      if down then
        if cur = 0 then some { k with mouse := k.mouse.set button.val 1 }
        else some k
      else
        if cur > 0 ∧ cur ≠ RELEASE_SIGNAL then
          some { k with mouse := k.mouse.set button.val RELEASE_SIGNAL }
        else some k

end Keys

/-! ## Claim theorems -/

/-- C6: for every `DeltaPacket` (Keyboard or Mouse, any representable code
and any down flag), decoding the 32-bit value produced by encoding returns
a packet identical to the original; the `Keyboard{code=65, down=true}`
scenario is the instance at `p = .Keyboard 65 true`. -/
theorem claim_C6_packet_codec_roundtrip (p : DeltaPacket) :
    DeltaPacket.from_bits (DeltaPacket.as_bits p) = some p :=
  DeltaPacket.from_bits_as_bits p

/-- C8: `as_bits` always produces a nonzero 32-bit encoding, so a stored
packet's fold half never equals the zero-valued empty-slot sentinel, and
`read_left`/`read_right` return `Some` on any half holding an encoded
packet. -/
theorem claim_C8_nonzero_encoding (p : DeltaPacket) (w : Nat) :
    DeltaPacket.as_bits p ≠ 0
    ∧ ((FoldBits.read_bits w).1 = DeltaPacket.as_bits p →
        FoldBits.read_left w = some p)
    ∧ ((FoldBits.read_bits w).2 = DeltaPacket.as_bits p →
        FoldBits.read_right w = some p) := by
  refine ⟨DeltaPacket.as_bits_ne_zero p, fun hl => ?_, fun hr => ?_⟩
  · simp only [FoldBits.read_bits] at hl
    simp only [FoldBits.read_left, FoldBits.read_bits, hl]
    rw [if_neg (DeltaPacket.as_bits_ne_zero p)]
    exact DeltaPacket.from_bits_as_bits p
  · simp only [FoldBits.read_bits] at hr
    simp only [FoldBits.read_right, FoldBits.read_bits, hr]
    rw [if_neg (DeltaPacket.as_bits_ne_zero p)]
    exact DeltaPacket.from_bits_as_bits p

/-- Witness for C8 at `p = Keyboard{65, down}` stored in the left half of a
fold. -/
theorem claim_C8_nonzero_encoding_witness :
    DeltaPacket.as_bits (.Keyboard (65 : Fin 65536) true) ≠ 0
    ∧ FoldBits.read_left (DeltaPacket.as_bits (.Keyboard (65 : Fin 65536) true) <<< 32)
        = some (.Keyboard (65 : Fin 65536) true) :=
  ⟨(claim_C8_nonzero_encoding (.Keyboard (65 : Fin 65536) true) 0).1,
   (claim_C8_nonzero_encoding (.Keyboard (65 : Fin 65536) true)
      (DeltaPacket.as_bits (.Keyboard (65 : Fin 65536) true) <<< 32)).2.1 (by decide)⟩

/-- C3: starting from a fresh accumulator, a sequence of `accum` samples
totalling `es.sum` elapsed time leaves `accumulated = es.sum`, and the
subsequent `overstep` drain returns `true` exactly `es.sum / step` times
before returning `false`, leaving residual `es.sum % step`. -/
theorem claim_C3_accumulator_drain (step : Nat) (es : List Nat)
    (hstep : 0 < step) :
    DeltaAccumulator.accum_all (DeltaAccumulator.new step) es = ⟨step, es.sum⟩
    ∧ DeltaAccumulator.overstep_run (es.sum / step + 1)
        (DeltaAccumulator.accum_all (DeltaAccumulator.new step) es)
      = (List.replicate (es.sum / step) true ++ [false], ⟨step, es.sum % step⟩) := by
  have hacc : DeltaAccumulator.accum_all (DeltaAccumulator.new step) es
      = ⟨step, es.sum⟩ := by
    rw [DeltaAccumulator.accum_all_accumulated]
    simp [DeltaAccumulator.new]
  exact ⟨hacc, by rw [hacc]; exact DeltaAccumulator.overstep_run_drain step hstep es.sum⟩

/-- Witness for C3: step = 16ms, one 50ms accumulation — three `true`
results, then `false`, residual 2ms (in nanoseconds). -/
theorem claim_C3_accumulator_drain_witness :
    DeltaAccumulator.overstep_run 4
        (DeltaAccumulator.accum_all (DeltaAccumulator.new 16000000) [50000000])
      = ([true, true, true, false], ⟨16000000, 2000000⟩) := by
  have h := (claim_C3_accumulator_drain 16000000 [50000000] (by norm_num)).2
  norm_num [List.replicate] at h
  exact h

/-- C2: a fresh `Mirror` cell with writer handle `A = (Mirror.new v0).2` and
reader handle `B = clone A`; after `A` publishes `v1, …, vn` (n ≥ 1) and
`B` syncs, `B.get()` returns exactly `vn`, the last published value. -/
theorem claim_C2_mirror_last_publish {T : Type} (v0 : T) (vs : List T)
    (hne : vs ≠ []) :
    Mirror.get
        (Mirror.sync
          (Mirror.publish_all (Mirror.new v0).1 (Mirror.new v0).2 vs).1
          (Mirror.clone (Mirror.new v0).2))
      = vs.getLast hne := by
  rw [Mirror.publish_all_shared]
  have hlen : 0 < vs.length := List.length_pos.mpr hne
  simp only [Mirror.new, Mirror.clone, Mirror.sync, Mirror.get]
  rw [if_pos (by simpa using hlen)]
  simp [List.getLast?_eq_getLast vs hne]

/-- Witness for C2: publishes `1, 2, 3`; the syncing reader observes `3`. -/
theorem claim_C2_mirror_last_publish_witness :
    Mirror.get
        (Mirror.sync
          (Mirror.publish_all (Mirror.new (0 : Nat)).1 (Mirror.new (0 : Nat)).2
            [1, 2, 3]).1
          (Mirror.clone (Mirror.new (0 : Nat)).2))
      = 3 :=
  (claim_C2_mirror_last_publish (0 : Nat) [1, 2, 3] (by simp)).trans rfl

/-- C7: `sync_noblock` never spins: when the handle is stale and the busy
flag is held it returns `Locked` immediately with the handle (local cache
and version) unchanged; in every other state it returns `Ok`; and `Locked`
is the only error it can ever report — never `TimeoutExceeded`. -/
theorem claim_C7_sync_noblock (T : Type) (sh : MirrorShared T)
    (h : MirrorHandle T) :
    (h.version < sh.latest → sh.rw_signal = true →
        Mirror.sync_noblock sh h = (.error .Locked, h))
    ∧ (¬(h.version < sh.latest ∧ sh.rw_signal = true) →
        (Mirror.sync_noblock sh h).1 = .ok ())
    ∧ (∀ ns, (Mirror.sync_noblock sh h).1 ≠ .error (.TimeoutExceeded ns)) := by
  by_cases h1 : h.version < sh.latest <;> by_cases h2 : sh.rw_signal
  all_goals simp [Mirror.sync_noblock, h1, h2]

/-- Witness for C7: stale handle, busy flag held — `Locked`, handle
untouched. -/
theorem claim_C7_sync_noblock_witness :
    Mirror.sync_noblock
        ({ cell := 5, latest := 1, rw_signal := true } : MirrorShared Nat)
        ({ localValue := 0, version := 0 } : MirrorHandle Nat)
      = (.error .Locked, { localValue := 0, version := 0 }) :=
  (claim_C7_sync_noblock Nat
      { cell := 5, latest := 1, rw_signal := true }
      { localValue := 0, version := 0 }).1 (by decide) rfl

/-- C9: `initialise_thread` moves `Uninitialised(state)` to an `Acquired`
thread handle, and calling it in any other state — `Preparing`, `Acquired`,
or again after a successful initialisation — is a fatal error (`panic!`,
modelled `none`), so the transition happens at most once per `Context`
lifetime. -/
theorem claim_C9_initialise_thread_once (State : Type) (s : State) :
    StateHandle.initialise_thread (.Uninitialised s) = some (.Acquired ())
    ∧ StateHandle.initialise_thread (.Preparing : StateHandle State) = none
    ∧ (∀ u, StateHandle.initialise_thread (.Acquired u : StateHandle State) = none)
    ∧ (∀ h' : StateHandle State,
        StateHandle.initialise_thread (.Uninitialised s) = some h' →
        StateHandle.initialise_thread h' = none) := by
  refine ⟨rfl, rfl, fun u => rfl, fun h' hh => ?_⟩
  simp only [StateHandle.initialise_thread] at hh
  cases hh
  rfl

/-- Witness for C9: after the first successful initialisation the second
call is refused fatally. -/
theorem claim_C9_initialise_thread_once_witness :
    StateHandle.initialise_thread (.Uninitialised (0 : Nat))
        = some (.Acquired ())
    ∧ StateHandle.initialise_thread (.Acquired () : StateHandle Nat) = none :=
  ⟨(claim_C9_initialise_thread_once Nat 0).1,
   (claim_C9_initialise_thread_once Nat 0).2.2.2 (.Acquired ())
     (claim_C9_initialise_thread_once Nat 0).1⟩

/-- C10: every winit keyboard key code converts to an index strictly below
512 and every winit mouse button to an index strictly below 24, so
`Keys::press_change` applied to any packet built from those conversions
never indexes the keyboard or mouse tables out of bounds (never hits the
`none` that models the panic). -/
theorem claim_C10_conversion_bounds (v : Fin 65536) (b : MouseButton)
    (d : Bool) (k : Keys) (hkb : k.keyboard.length = KEYBOARD_ENTRIES)
    (hm : k.mouse.length = MOUSE_ENTRIES) :
    (keyboardKeyCodeFrom v).val < KEYBOARD_ENTRIES
    ∧ (mouseButtonIndexFrom b).val < MOUSE_ENTRIES
    ∧ (k.press_change (.Keyboard (keyboardKeyCodeFrom v) d)).isSome
    ∧ (k.press_change (.Mouse (mouseButtonIndexFrom b) d)).isSome := by
  have hkc : (keyboardKeyCodeFrom v).val < KEYBOARD_ENTRIES := by
    simp only [keyboardKeyCodeFrom, KEYBOARD_ENTRIES]
    omega
  have hmc : (mouseButtonIndexFrom b).val < MOUSE_ENTRIES := by
    cases b <;> simp [mouseButtonIndexFrom, MOUSE_ENTRIES] <;> omega
  refine ⟨hkc, hmc, ?_, ?_⟩
  · cases hg : k.keyboard.get? (keyboardKeyCodeFrom v).val with
    | none =>
        rw [List.get?_eq_none] at hg
        omega
    | some cur =>
        simp only [Keys.press_change, hg, Option.bind_eq_bind, Option.some_bind]
        split <;> split <;> simp
  · cases hg : k.mouse.get? (mouseButtonIndexFrom b).val with
    | none =>
        rw [List.get?_eq_none] at hg
        omega
    | some cur =>
        simp only [Keys.press_change, hg, Option.bind_eq_bind, Option.some_bind]
        split <;> split <;> simp

/-- Witness for C10: key code 65 and the left mouse button against a fresh
`Keys` table. -/
theorem claim_C10_conversion_bounds_witness :
    (keyboardKeyCodeFrom (65 : Fin 65536)).val < KEYBOARD_ENTRIES
    ∧ (mouseButtonIndexFrom .Left).val < MOUSE_ENTRIES
    ∧ (Keys.new.press_change
        (.Keyboard (keyboardKeyCodeFrom (65 : Fin 65536)) true)).isSome
    ∧ (Keys.new.press_change (.Mouse (mouseButtonIndexFrom .Left) true)).isSome :=
  claim_C10_conversion_bounds (65 : Fin 65536) .Left true Keys.new
    (by simp only [Keys.new, List.length_replicate])
    (by simp only [Keys.new, List.length_replicate])

/-- C1 (failing trace): pushing two packets into a fresh
`InputStream<12, 6>` (the repository's instantiation) and then draining
yields `[]`, not the two packets in FIFO order.  The first push lands in
slot 2 of section 0 (the head's section byte is read as the slot), the
second push's `write_right` AND-combines into a zeroed word of section 2
and is destroyed, and the reader's first probe (slot 1 of section 0) finds
the empty sentinel and stops. -/
theorem claim_C1_fifo_failing_trace :
    (do
      let s1 ← InputStream.push_front 12 (InputStream.new 12 6)
        (.Keyboard (65 : Fin 65536) true)
      let s2 ← InputStream.push_front 12 s1 (.Keyboard (66 : Fin 65536) false)
      let (ps, _) ← InputStream.drain_back 12 13 s2
      some ps) = some ([] : List DeltaPacket) := by
  decide

/-- C4 (failing trace): on `InputStream<2, 2>` (two sections of one-fold
capacity 2), pushing two packets and then performing one writer rotation
(`frame_front`) makes the head's reported section index equal the tail's —
the rotation moves the writer into the section the reader has not drained,
with no refusal anywhere on the writer path. -/
theorem claim_C4_rotation_collision :
    (do
      let s1 ← InputStream.push_front 2 (InputStream.new 2 2)
        (.Keyboard (65 : Fin 65536) true)
      let s2 ← InputStream.push_front 2 s1 (.Keyboard (66 : Fin 65536) false)
      let s3 := InputStream.frame_front 2 s2
      some (InputStreamIndex.sectionOf s3.head, InputStreamIndex.sectionOf s3.tail))
      = some (0, 0) := by
  decide

/-- C5 (failing evaluation): on the head's initial state (local slot 0,
section 1) with section capacity 12, `advance_local` returns `(2, 0)` —
the slot value is the incremented *section byte*, the returned section is
the old *slot byte* — and stores `encode 2 0`, changing the reported
section from 1 to 0.  The claim (and the function's own doc comment)
requires the return `(0, 1)` and the stored state `encode 1 1`. -/
theorem claim_C5_advance_local_eval :
    InputStreamIndex.advance_local (InputStreamIndex.SECTION_CAPACITY 12)
        (InputStreamIndex.encode 0 1)
      = ((2, 0), InputStreamIndex.encode 2 0)
    ∧ InputStreamIndex.sectionOf (InputStreamIndex.encode 0 1) = 1
    ∧ InputStreamIndex.sectionOf (InputStreamIndex.encode 2 0) = 0 := by
  decide

end Janus
